import Mathlib

/-!
Verification of the sensor-fusion and event-detection core of the
TennisBall_IMU firmware (WebSocket streaming variant).  The definitions below
are a shallow embedding of the firmware's quaternion math, spin classifier,
gyro-bias estimator, impact/shot state machine, telemetry gating and
sleep/wake timing logic; float arithmetic is modelled by exact real
arithmetic, uint32 timestamps by naturals with explicit wrap-around
subtraction, and the uint8 client counter by naturals modulo 256.
-/

namespace TennisIMU

/-- Three-component vector, mirroring the firmware struct `Vec3`. -/
@[ext]
structure Vec3 (α : Type) where
  x : α
  y : α
  z : α

/-- Quaternion `(w, x, y, z)`, mirroring the firmware struct `Quat`. -/
@[ext]
structure Quat (α : Type) where
  w : α
  x : α
  y : α
  z : α

/-- Hamilton quaternion product, from `qmul`. -/
def qmul {α : Type} [CommRing α] (a b : Quat α) : Quat α :=
  ⟨a.w*b.w - a.x*b.x - a.y*b.y - a.z*b.z,
   a.w*b.x + a.x*b.w + a.y*b.z - a.z*b.y,
   a.w*b.y - a.x*b.z + a.y*b.w + a.z*b.x,
   a.w*b.z + a.x*b.y - a.y*b.x + a.z*b.w⟩

/-- Squared quaternion norm `w*w + x*x + y*y + z*z`, the radicand used by `qnorm`. -/
def normSq {α : Type} [CommRing α] (q : Quat α) : α :=
  q.w*q.w + q.x*q.x + q.y*q.y + q.z*q.z

/-- Renormalization, from `qnorm`: divide by the norm only when it exceeds the
1e-4 floor, otherwise leave the quaternion unchanged. -/
noncomputable def qnorm (q : Quat ℝ) : Quat ℝ :=
  let len := Real.sqrt (q.w*q.w + q.x*q.x + q.y*q.y + q.z*q.z)
  if len > 0.0001 then
    let inv := 1 / len
    ⟨q.w * inv, q.x * inv, q.y * inv, q.z * inv⟩
  else q

/-- Optimized quaternion-vector rotation `q * v * q⁻¹` using the two-cross-product
expansion, from `qrot`. -/
def qrot {α : Type} [CommRing α] (q : Quat α) (v : Vec3 α) : Vec3 α :=
  let tx := 2 * (q.y * v.z - q.z * v.y)
  let ty := 2 * (q.z * v.x - q.x * v.z)
  let tz := 2 * (q.x * v.y - q.y * v.x)
  ⟨v.x + q.w * tx + (q.y * tz - q.z * ty),
   v.y + q.w * ty + (q.z * tx - q.x * tz),
   v.z + q.w * tz + (q.x * ty - q.y * tx)⟩

/-- Quaternion conjugate `(w, -x, -y, -z)`, the `conjugate(q)` the spec's
round-trip property composes with `qrot`. -/
def qconj {α : Type} [CommRing α] (q : Quat α) : Quat α :=
  ⟨q.w, -q.x, -q.y, -q.z⟩

/-- Spin labels written by `classifySpin` into the `spinType` buffer. -/
inductive SpinType where
  | FLAT
  | TOPSPIN
  | BACKSPIN
  | SIDE_R
  | SIDE_L
  | SLICE
  | MIXED
  deriving DecidableEq

/-- Heuristic spin classifier, from `classifySpin` (thresholds 5 rpm, total
floor 1, dominance ratio 0.5, branch order X then Y then Z). -/
def classifySpin {α : Type} [LinearOrderedField α]
    [DecidableRel ((· < ·) : α → α → Prop)] (gx gy gz rpm : α) : SpinType :=
  if rpm < 5 then .FLAT else
  let agx := |gx|
  let agy := |gy|
  let agz := |gz|
  let total := agx + agy + agz
  if total < 1 then .FLAT else
  let rx := agx / total
  let ry := agy / total
  let rz := agz / total
  if rx > 0.5 then (if gx > 0 then .TOPSPIN else .BACKSPIN)
  else if ry > 0.5 then (if gy > 0 then .SIDE_R else .SIDE_L)
  else if rz > 0.5 then .SLICE
  else .MIXED

/-- One quaternion-integration step of the main loop: dead zone 0.10 rad/s,
incremental quaternion from the exact axis-angle of `ω·dt`, right
multiplication, renormalization. -/
noncomputable def integrateStep (q : Quat ℝ) (gx gy gz dt : ℝ) : Quat ℝ :=
  let wmag := Real.sqrt (gx*gx + gy*gy + gz*gz)
  if wmag > 0.10 then
    let angle := wmag * dt
    let ha := angle * 0.5
    let sha := Real.sin ha
    let invW := 1 / wmag
    let dq : Quat ℝ := ⟨Real.cos ha, gx * invW * sha, gy * invW * sha, gz * invW * sha⟩
    qnorm (qmul q dq)
  else q

/-- Adaptive gyro-bias estimation step of the main loop: components move toward
the raw rad/s reading with coefficient 0.002 only when the raw angular-rate
magnitude is below the 0.15 rad/s stationarity threshold. -/
noncomputable def biasStep (bias gRaw : Vec3 ℝ) : Vec3 ℝ :=
  let rawMag := Real.sqrt (gRaw.x*gRaw.x + gRaw.y*gRaw.y + gRaw.z*gRaw.z)
  if rawMag < 0.15 then
    ⟨bias.x + 0.002 * (gRaw.x - bias.x),
     bias.y + 0.002 * (gRaw.y - bias.y),
     bias.z + 0.002 * (gRaw.z - bias.z)⟩
  else bias

/-- Iterated bias estimation under a constant raw reading. -/
noncomputable def biasIter (gRaw : Vec3 ℝ) (n : ℕ) (bias : Vec3 ℝ) : Vec3 ℝ :=
  (fun b => biasStep b gRaw)^[n] bias

/-- Fold of the integration step over a list of `(ωx, ωy, ωz, dt)` samples,
starting from the identity quaternion as the firmware does. -/
noncomputable def integrateRun (l : List (ℝ × ℝ × ℝ × ℝ)) : Quat ℝ :=
  l.foldl (fun q p => integrateStep q p.1 p.2.1 p.2.2.1 p.2.2.2) ⟨1, 0, 0, 0⟩

/-- Unsigned 32-bit subtraction `a - b`, as the firmware's uint32 timestamp
arithmetic computes it (both arguments are values of uint32 variables). -/
def usub32 (a b : ℕ) : ℕ := (a + 2^32 - b) % 2^32

/-- Fixed capacity of the shot log, from `MAX_SHOTS`. -/
def MAX_SHOTS : ℕ := 50

/-- One committed shot record, from struct `ShotEvent`. -/
structure ShotEvent where
  timestamp : ℕ
  peakRPM : ℝ
  peakG : ℝ
  gx : ℝ
  gy : ℝ
  gz : ℝ
  spinType : SpinType

/-- Observable actions of one loop iteration: the impact trigger firing, the two
`classifySpin` call sites, and the two `broadcastTXT` message kinds. -/
inductive Ev where
  | trigger
  | shotClassified (gx gy gz rpm : ℝ)
  | shotSent (idx : ℕ)
  | sampleClassified (gx gy gz rpm : ℝ)
  | sampleSent (imp : Bool)

/-- One IMU read: accel in g, gyro in deg/s, from `m5::imu_data_t`. -/
structure ImuSample where
  ax : ℝ
  ay : ℝ
  az : ℝ
  gx : ℝ
  gy : ℝ
  gz : ℝ

/-- Inputs of one loop iteration: the micros() and millis() reads and the IMU sample. -/
structure TickIn where
  nowUs : ℕ
  nowMs : ℕ
  d : ImuSample

/-- The file-static state of the firmware core that the sensor pipeline touches. -/
@[ext]
structure LoopState where
  orient : Quat ℝ
  filtGx : ℝ
  filtGy : ℝ
  filtGz : ℝ
  filtRPM : ℝ
  gyroBias : Vec3 ℝ
  lastUs : ℕ
  lastWsSendMs : ℕ
  lastImpactMs : ℕ
  impactFlag : Bool
  trackingPeak : Bool
  peakTrackStartMs : ℕ
  peakRPMval : ℝ
  peakGval : ℝ
  peakGx : ℝ
  peakGy : ℝ
  peakGz : ℝ
  shots : List ShotEvent
  clientCount : ℕ

/-- Initial values of the firmware statics (identity quaternion, all zeros,
empty shot log). -/
def initState : LoopState :=
  { orient := ⟨1, 0, 0, 0⟩
    filtGx := 0, filtGy := 0, filtGz := 0, filtRPM := 0
    gyroBias := ⟨0, 0, 0⟩
    lastUs := 0, lastWsSendMs := 0, lastImpactMs := 0
    impactFlag := false
    trackingPeak := false
    peakTrackStartMs := 0
    peakRPMval := 0, peakGval := 0, peakGx := 0, peakGy := 0, peakGz := 0
    shots := []
    clientCount := 0 }

/-- Instantaneous acceleration magnitude, from the impact-detection block. -/
noncomputable def accelMagOf (d : ImuSample) : ℝ :=
  Real.sqrt (d.ax*d.ax + d.ay*d.ay + d.az*d.az)

/-- Delta-time computation of the loop: microseconds scaled to seconds, clamped
to the 0.033 s default whenever it exceeds 0.1 s. -/
noncomputable def dtOf (lastUs nowUs : ℕ) : ℝ :=
  let dt := (usub32 nowUs lastUs : ℝ) * 1e-6
  if dt > 0.1 then 0.033 else dt

/-- Filter and bias portion of one loop iteration: store the new micros()
reference, run the bias estimator on the rad/s raw gyro, and advance the
display EMA filters (coefficients 0.15 for the gyro axes, 0.08 for RPM). -/
noncomputable def preState (s : LoopState) (i : TickIn) : LoopState :=
  { s with
    lastUs := i.nowUs
    gyroBias := biasStep s.gyroBias
      ⟨i.d.gx * (Real.pi / 180), i.d.gy * (Real.pi / 180), i.d.gz * (Real.pi / 180)⟩
    filtGx := s.filtGx + 0.15 * (i.d.gx - s.filtGx)
    filtGy := s.filtGy + 0.15 * (i.d.gy - s.filtGy)
    filtGz := s.filtGz + 0.15 * (i.d.gz - s.filtGz)
    filtRPM := s.filtRPM + 0.08 * (Real.sqrt (i.d.gx*i.d.gx + i.d.gy*i.d.gy + i.d.gz*i.d.gz) / 6
      - s.filtRPM) }

/-- Impact-detection block: trigger when the acceleration magnitude exceeds the
4 g threshold and more than the 200 ms debounce elapsed since the last trigger;
on trigger, snapshot the filtered values as initial peaks and raise the
one-shot impact flag. -/
noncomputable def impactPhase (s : LoopState) (nowMs : ℕ) (accelMag : ℝ) :
    LoopState × List Ev :=
  if accelMag > 4 ∧ usub32 nowMs s.lastImpactMs > 200 then
    ({ s with
        lastImpactMs := nowMs
        impactFlag := true
        trackingPeak := true
        peakTrackStartMs := nowMs
        peakRPMval := s.filtRPM
        peakGval := accelMag
        peakGx := s.filtGx, peakGy := s.filtGy, peakGz := s.filtGz },
     [Ev.trigger])
  else (s, [])

/-- Peak-tracking block: while tracking, update the running maxima (RPM and
acceleration by max, the gyro vector by L1-norm comparison); once more than
100 ms have passed since the window opened, stop tracking and — only when the
log has spare capacity — classify the peaks, append the record and broadcast
the shot message. -/
noncomputable def trackPhase (s : LoopState) (nowMs : ℕ) (accelMag : ℝ) :
    LoopState × List Ev :=
  if s.trackingPeak then
    let pRPM := if s.filtRPM > s.peakRPMval then s.filtRPM else s.peakRPMval
    let pG := if accelMag > s.peakGval then accelMag else s.peakGval
    let l1bigger := |s.filtGx| + |s.filtGy| + |s.filtGz| > |s.peakGx| + |s.peakGy| + |s.peakGz|
    let pgx := if l1bigger then s.filtGx else s.peakGx
    let pgy := if l1bigger then s.filtGy else s.peakGy
    let pgz := if l1bigger then s.filtGz else s.peakGz
    let s1 := { s with peakRPMval := pRPM, peakGval := pG, peakGx := pgx, peakGy := pgy,
                       peakGz := pgz }
    if usub32 nowMs s.peakTrackStartMs > 100 then
      let s2 := { s1 with trackingPeak := false }
      if s2.shots.length < MAX_SHOTS then
        ({ s2 with shots := s2.shots ++ [⟨s2.lastImpactMs, pRPM, pG, pgx, pgy, pgz,
             classifySpin pgx pgy pgz pRPM⟩] },
         [Ev.shotClassified pgx pgy pgz pRPM, Ev.shotSent s2.shots.length])
      else (s2, [])
    else (s1, [])
  else (s, [])

/-- Telemetry-emission block: when 20 ms have elapsed since the last sample
message and at least one client is attached, classify the filtered values,
broadcast the sample message carrying the impact flag, and clear the flag. -/
noncomputable def sendPhase (s : LoopState) (nowMs : ℕ) : LoopState × List Ev :=
  if 20 ≤ usub32 nowMs s.lastWsSendMs ∧ 0 < s.clientCount then
    ({ s with
        lastWsSendMs := nowMs
        impactFlag := if s.impactFlag then false else s.impactFlag },
     [Ev.sampleClassified s.filtGx s.filtGy s.filtGz s.filtRPM, Ev.sampleSent s.impactFlag])
  else (s, [])

/-- Quaternion-integration block applied to the loop state: advance the
orientation from the bias-corrected angular velocity. -/
noncomputable def integratePhase (s : LoopState) (gx gy gz dt : ℝ) : LoopState :=
  { s with orient := integrateStep s.orient gx gy gz dt }

/-- One full iteration of the sensor pipeline of `loop` (button handling and
screen rendering excluded): dt, bias, filters, impact detection, peak tracking,
quaternion integration, telemetry emission — in the source order. -/
noncomputable def tick (s : LoopState) (i : TickIn) : LoopState × List Ev :=
  let s1 := preState s i
  let accelMag := accelMagOf i.d
  let r2 := impactPhase s1 i.nowMs accelMag
  let r3 := trackPhase r2.1 i.nowMs accelMag
  let s4 := integratePhase r3.1 (i.d.gx * (Real.pi / 180) - s1.gyroBias.x)
    (i.d.gy * (Real.pi / 180) - s1.gyroBias.y)
    (i.d.gz * (Real.pi / 180) - s1.gyroBias.z) (dtOf s.lastUs i.nowUs)
  let r5 := sendPhase s4 i.nowMs
  (r5.1, r2.2 ++ r3.2 ++ r5.2)

/-- Run of the control loop over a list of tick inputs, collecting the event
trace. -/
noncomputable def run (s : LoopState) : List TickIn → LoopState × List Ev
  | [] => (s, [])
  | i :: rest =>
      let r := tick s i
      let rr := run r.1 rest
      (rr.1, r.2 ++ rr.2)

/-- WebSocket notifications delivered to `onWsEvent`. -/
inductive WsEvent where
  | connected
  | disconnected
  | text (payload : String)

/-- Connection-count and command handler, from `onWsEvent`; the client counter
is a uint8, so increments wrap modulo 256, and decrements are guarded by a
zero check. -/
def onWsEvent (s : LoopState) (e : WsEvent) : LoopState :=
  match e with
  | .connected => { s with clientCount := (s.clientCount + 1) % 256 }
  | .disconnected => if 0 < s.clientCount then { s with clientCount := s.clientCount - 1 } else s
  | .text payload =>
      let s1 := if payload = "reset" then { s with orient := ⟨1, 0, 0, 0⟩ } else s
      if payload = "clear_shots" then { s1 with shots := [] } else s1

/-- Fold of `onWsEvent` over a sequence of notifications. -/
def wsRun (s : LoopState) (l : List WsEvent) : LoopState := l.foldl onWsEvent s

/-- Timing-relevant effects of `wakeFromSleep`: reset the micros() reference and
the sample-cadence reference to the wake-time clock reads, and zero the client
count; orientation, filters, bias and the shot log are preserved. -/
def wakeFromSleep (s : LoopState) (wakeUs wakeMs : ℕ) : LoopState :=
  { s with lastUs := wakeUs, lastWsSendMs := wakeMs, clientCount := 0 }

/-- Reference behaviour of the one-shot impact flag over an event trace: set by
a trigger, cleared by (and only by) a sample-message emission, carried
otherwise. -/
def flagSpec : Bool → List Ev → Bool
  | b, [] => b
  | _, Ev.trigger :: rest => flagSpec true rest
  | _, Ev.sampleSent _ :: rest => flagSpec false rest
  | b, _ :: rest => flagSpec b rest

/-- The predicate that every sample message in a trace carries exactly the
"impact since the previous sample message" bit, threading the same reference
state as `flagSpec`. -/
def sentFlagsOk : Bool → List Ev → Prop
  | _, [] => True
  | _, Ev.trigger :: rest => sentFlagsOk true rest
  | b, Ev.sampleSent x :: rest => x = b ∧ sentFlagsOk false rest
  | b, _ :: rest => sentFlagsOk b rest

/-- Recognizer for trigger events. -/
def isTrigger : Ev → Bool
  | Ev.trigger => true
  | _ => false

/-- Recognizer for shot-message events. -/
def isShotSent : Ev → Bool
  | Ev.shotSent _ => true
  | _ => false

/-- The state-machine invariant tying the debounce reference to the window
start: while tracking, the last trigger time is the window-open time. -/
def trackInv (s : LoopState) : Prop :=
  s.trackingPeak = true → s.lastImpactMs = s.peakTrackStartMs

/-- Tick input with a 5 g spike on the accelerometer X axis and a silent gyro. -/
def spikeAt (ms : ℕ) : TickIn := ⟨0, ms, ⟨5, 0, 0, 0, 0, 0⟩⟩

/-- Tick input with all sensors silent. -/
def quietAt (ms : ℕ) : TickIn := ⟨0, ms, ⟨0, 0, 0, 0, 0, 0⟩⟩

/-- Two spikes 150 ms apart (less than the 200 ms debounce), then silence. -/
def scenClose : List TickIn := [spikeAt 1000, spikeAt 1150, quietAt 1300]

/-- Two spikes 300 ms apart (more than the 200 ms debounce), with quiet ticks
in between so each peak window can close. -/
def scenApart : List TickIn := [spikeAt 1000, quietAt 1150, spikeAt 1300, quietAt 1450]

/-- A state whose shot log is at capacity while a peak window is open. -/
def sFull : LoopState :=
  { initState with
      lastImpactMs := 1000
      impactFlag := true
      trackingPeak := true
      peakTrackStartMs := 1000
      peakGval := 5
      shots := List.replicate 50 ⟨1000, 0, 5, 0, 0, 0, SpinType.FLAT⟩ }

/-- A state in the middle of an open peak window (50 ms in). -/
def sTrack : LoopState :=
  { initState with
      lastImpactMs := 1000
      impactFlag := true
      trackingPeak := true
      peakTrackStartMs := 1000
      peakGval := 5 }

/-- A state with 255 attached clients — the maximum of the uint8 counter. -/
def s255 : LoopState := { initState with clientCount := 255 }

/-- A pre-sleep state whose tick-timing reference is at one second. -/
def preSleepState : LoopState := { initState with lastUs := 1000000 }

/-- The shot record committed for a 5 g spike with silent gyro triggered at `t`. -/
def shotRec (t : ℕ) : ShotEvent := ⟨t, 0, 5, 0, 0, 0, SpinType.FLAT⟩

/-- Loop state inside an open peak window that a 5 g spike at time `t` opened,
with shot log `sh` (silent gyro throughout). -/
def trkState (t : ℕ) (sh : List ShotEvent) : LoopState :=
  { initState with
      lastImpactMs := t
      impactFlag := true
      trackingPeak := true
      peakTrackStartMs := t
      peakGval := 5
      shots := sh }

/-- Loop state after the peak window of the spike at `t` has closed, with shot
log `sh`. -/
def idlState (t : ℕ) (sh : List ShotEvent) : LoopState :=
  { initState with
      lastImpactMs := t
      impactFlag := true
      trackingPeak := false
      peakTrackStartMs := t
      peakGval := 5
      shots := sh }

/-! Helper lemmas about the quaternion algebra. -/

theorem normSq_qmul {α : Type} [CommRing α] (a b : Quat α) :
    normSq (qmul a b) = normSq a * normSq b := by
  simp only [normSq, qmul]
  ring

theorem normSq_qnorm_of_one (q : Quat ℝ) (h : normSq q = 1) : normSq (qnorm q) = 1 := by
  have hlen : Real.sqrt (q.w*q.w + q.x*q.x + q.y*q.y + q.z*q.z) = 1 := by
    have h2 : q.w*q.w + q.x*q.x + q.y*q.y + q.z*q.z = 1 := h
    rw [h2, Real.sqrt_one]
  simp only [qnorm, hlen]
  rw [if_pos (by norm_num)]
  simp only [normSq] at h ⊢
  nlinarith [h]

theorem normSq_integrateStep (q : Quat ℝ) (gx gy gz dt : ℝ) (h : normSq q = 1) :
    normSq (integrateStep q gx gy gz dt) = 1 := by
  unfold integrateStep
  by_cases hw : Real.sqrt (gx*gx + gy*gy + gz*gz) > 0.10
  · simp only [if_pos hw]
    have hS : (0:ℝ) ≤ gx*gx + gy*gy + gz*gz :=
      add_nonneg (add_nonneg (mul_self_nonneg gx) (mul_self_nonneg gy)) (mul_self_nonneg gz)
    have hww : Real.sqrt (gx*gx + gy*gy + gz*gz) * Real.sqrt (gx*gx + gy*gy + gz*gz)
        = gx*gx + gy*gy + gz*gz := Real.mul_self_sqrt hS
    have hw0 : (0:ℝ) < Real.sqrt (gx*gx + gy*gy + gz*gz) := lt_trans (by norm_num) hw
    have hwne : Real.sqrt (gx*gx + gy*gy + gz*gz) ≠ 0 := ne_of_gt hw0
    have hS0 : (0:ℝ) < gx*gx + gy*gy + gz*gz := by nlinarith [hww, hw0]
    have hSne : gx*gx + gy*gy + gz*gz ≠ 0 := ne_of_gt hS0
    apply normSq_qnorm_of_one
    rw [normSq_qmul, h, one_mul]
    simp only [normSq]
    have hsc := Real.sin_sq_add_cos_sq (Real.sqrt (gx*gx + gy*gy + gz*gz) * dt * 0.5)
    field_simp
    linear_combination (gx*gx + gy*gy + gz*gz) * hsc
  · simp only [if_neg hw]
    exact h

/-- C1: starting from the identity quaternion, after every integration step the
quaternion norm stays within 1e-3 of 1.  In the exact-arithmetic model of the
float code the step either leaves the quaternion unchanged (dead zone), or
right-multiplies by a unit incremental quaternion and renormalizes (the
1e-4 floor is then passed, so the division happens), keeping the norm
exactly 1; finiteness of the inputs is automatic for real numbers. -/
theorem quat_norm_invariant (l : List (ℝ × ℝ × ℝ × ℝ)) :
    |Real.sqrt (normSq (integrateRun l)) - 1| ≤ 1e-3 := by
  have key : normSq (integrateRun l) = 1 := by
    unfold integrateRun
    have gen : ∀ q : Quat ℝ, normSq q = 1 →
        normSq (l.foldl (fun q p => integrateStep q p.1 p.2.1 p.2.2.1 p.2.2.2) q) = 1 := by
      induction l with
      | nil => intro q hq; exact hq
      | cons p rest ih =>
          intro q hq
          exact ih _ (normSq_integrateStep _ _ _ _ _ hq)
    exact gen ⟨1, 0, 0, 0⟩ (by norm_num [normSq])
  rw [key, Real.sqrt_one]
  norm_num

/-- Witness for C1: the empty integration sequence, evaluated at the identity. -/
theorem quat_norm_invariant_witness :
    |Real.sqrt (normSq (integrateRun [])) - 1| ≤ 1e-3 :=
  quat_norm_invariant []

/-- C3: dead-zone idempotence — whenever the bias-corrected angular-velocity
magnitude is below the 0.10 rad/s dead zone, the integration step returns the
quaternion exactly unchanged, for every quaternion and every dt. -/
theorem deadzone_idempotent (q : Quat ℝ) (gx gy gz dt : ℝ)
    (h : Real.sqrt (gx*gx + gy*gy + gz*gz) < 0.10) :
    integrateStep q gx gy gz dt = q := by
  unfold integrateStep
  rw [if_neg (not_lt.mpr (le_of_lt h))]

/-- Witness for C3 at the zero angular velocity and dt = 5. -/
theorem deadzone_idempotent_witness :
    integrateStep ⟨1, 0, 0, 0⟩ 0 0 0 5 = (⟨1, 0, 0, 0⟩ : Quat ℝ) :=
  deadzone_idempotent ⟨1, 0, 0, 0⟩ 0 0 0 5 (by
    rw [show (0:ℝ)*0 + 0*0 + 0*0 = 0 by ring, Real.sqrt_zero]
    norm_num)

/-- C9: rotation round-trip — `qrot` is a pure function (modelled as such), and
composing it with the rotation by the conjugate quaternion is the identity on
vectors for every unit quaternion; in exact real arithmetic the round trip is
exact, hence within any floating tolerance. -/
theorem qrot_roundtrip (q : Quat ℝ) (v : Vec3 ℝ) (h : normSq q = 1) :
    qrot q (qrot (qconj q) v) = v := by
  obtain ⟨w, x, y, z⟩ := q
  obtain ⟨vx, vy, vz⟩ := v
  simp only [normSq] at h
  simp only [qrot, qconj]
  refine Vec3.ext ?_ ?_ ?_
  · show _ = vx
    linear_combination (4*(x*x+y*y+z*z)*vx - 4*(x*vx+y*vy+z*vz)*x) * h
  · show _ = vy
    linear_combination (4*(x*x+y*y+z*z)*vy - 4*(x*vx+y*vy+z*vz)*y) * h
  · show _ = vz
    linear_combination (4*(x*x+y*y+z*z)*vz - 4*(x*vx+y*vy+z*vz)*z) * h

/-- Witness for C9 at the identity quaternion and the vector (1, 2, 3). -/
theorem qrot_roundtrip_witness :
    qrot ⟨1, 0, 0, 0⟩ (qrot (qconj ⟨1, 0, 0, 0⟩) ⟨1, 2, 3⟩) = (⟨1, 2, 3⟩ : Vec3 ℝ) :=
  qrot_roundtrip ⟨1, 0, 0, 0⟩ ⟨1, 2, 3⟩ (by norm_num [normSq])

/-- C4: spin-classifier contract — FLAT below the 5 rpm minimum, FLAT below the
L1 total floor of 1, axis-dominance decisions at the 0.5 ratio threshold in
X, Y, Z order with the sign picking the label on X and Y, MIXED when no ratio
exceeds 0.5; together with the spec's five concrete boundary examples. -/
theorem classifySpin_contract :
    (∀ gx gy gz rpm : ℚ, rpm < 5 → classifySpin gx gy gz rpm = SpinType.FLAT)
  ∧ (∀ gx gy gz rpm : ℚ, 5 ≤ rpm → |gx| + |gy| + |gz| < 1 →
      classifySpin gx gy gz rpm = SpinType.FLAT)
  ∧ (∀ gx gy gz rpm : ℚ, 5 ≤ rpm → 1 ≤ |gx| + |gy| + |gz| →
      |gx| / (|gx| + |gy| + |gz|) > 0.5 →
      (0 < gx → classifySpin gx gy gz rpm = SpinType.TOPSPIN)
      ∧ (gx ≤ 0 → classifySpin gx gy gz rpm = SpinType.BACKSPIN))
  ∧ (∀ gx gy gz rpm : ℚ, 5 ≤ rpm → 1 ≤ |gx| + |gy| + |gz| →
      |gy| / (|gx| + |gy| + |gz|) > 0.5 →
      (0 < gy → classifySpin gx gy gz rpm = SpinType.SIDE_R)
      ∧ (gy ≤ 0 → classifySpin gx gy gz rpm = SpinType.SIDE_L))
  ∧ (∀ gx gy gz rpm : ℚ, 5 ≤ rpm → 1 ≤ |gx| + |gy| + |gz| →
      |gz| / (|gx| + |gy| + |gz|) > 0.5 →
      classifySpin gx gy gz rpm = SpinType.SLICE)
  ∧ (∀ gx gy gz rpm : ℚ, 5 ≤ rpm → 1 ≤ |gx| + |gy| + |gz| →
      |gx| / (|gx| + |gy| + |gz|) ≤ 0.5 → |gy| / (|gx| + |gy| + |gz|) ≤ 0.5 →
      |gz| / (|gx| + |gy| + |gz|) ≤ 0.5 →
      classifySpin gx gy gz rpm = SpinType.MIXED)
  ∧ classifySpin (0:ℚ) 0 0 0 = SpinType.FLAT
  ∧ classifySpin (100:ℚ) 0 0 400 = SpinType.TOPSPIN
  ∧ classifySpin (-100:ℚ) 0 0 400 = SpinType.BACKSPIN
  ∧ classifySpin (0:ℚ) 100 0 400 = SpinType.SIDE_R
  ∧ classifySpin (40:ℚ) 35 35 400 = SpinType.MIXED := by
  refine ⟨?_, ?_, ?_, ?_, ?_, ?_, ?_, ?_, ?_, ?_, ?_⟩
  · intro gx gy gz rpm h5
    simp only [classifySpin]
    rw [if_pos h5]
  · intro gx gy gz rpm h5 htot
    simp only [classifySpin]
    rw [if_neg (not_lt.mpr h5), if_pos htot]
  · intro gx gy gz rpm h5 htot hx
    constructor
    · intro hgx
      simp only [classifySpin]
      rw [if_neg (not_lt.mpr h5), if_neg (not_lt.mpr htot), if_pos hx, if_pos hgx]
    · intro hgx
      simp only [classifySpin]
      rw [if_neg (not_lt.mpr h5), if_neg (not_lt.mpr htot), if_pos hx,
        if_neg (not_lt.mpr hgx)]
  · intro gx gy gz rpm h5 htot hy
    have ht0 : (0:ℚ) < |gx| + |gy| + |gz| := lt_of_lt_of_le one_pos htot
    have hy2 : 0.5 * (|gx| + |gy| + |gz|) < |gy| := by
      rw [gt_iff_lt, lt_div_iff₀ ht0] at hy
      linarith
    have hxle : ¬(|gx| / (|gx| + |gy| + |gz|) > 0.5) := by
      rw [gt_iff_lt, not_lt, div_le_iff₀ ht0]
      have := abs_nonneg gz
      linarith
    constructor
    · intro hgy
      simp only [classifySpin]
      rw [if_neg (not_lt.mpr h5), if_neg (not_lt.mpr htot), if_neg hxle, if_pos hy,
        if_pos hgy]
    · intro hgy
      simp only [classifySpin]
      rw [if_neg (not_lt.mpr h5), if_neg (not_lt.mpr htot), if_neg hxle, if_pos hy,
        if_neg (not_lt.mpr hgy)]
  · intro gx gy gz rpm h5 htot hz
    have ht0 : (0:ℚ) < |gx| + |gy| + |gz| := lt_of_lt_of_le one_pos htot
    have hz2 : 0.5 * (|gx| + |gy| + |gz|) < |gz| := by
      rw [gt_iff_lt, lt_div_iff₀ ht0] at hz
      linarith
    have hxle : ¬(|gx| / (|gx| + |gy| + |gz|) > 0.5) := by
      rw [gt_iff_lt, not_lt, div_le_iff₀ ht0]
      have := abs_nonneg gy
      linarith
    have hyle : ¬(|gy| / (|gx| + |gy| + |gz|) > 0.5) := by
      rw [gt_iff_lt, not_lt, div_le_iff₀ ht0]
      have := abs_nonneg gx
      linarith
    simp only [classifySpin]
    rw [if_neg (not_lt.mpr h5), if_neg (not_lt.mpr htot), if_neg hxle, if_neg hyle,
      if_pos hz]
  · intro gx gy gz rpm h5 htot hxle hyle hzle
    simp only [classifySpin]
    rw [if_neg (not_lt.mpr h5), if_neg (not_lt.mpr htot), if_neg (not_lt.mpr hxle),
      if_neg (not_lt.mpr hyle), if_neg (not_lt.mpr hzle)]
  · norm_num [classifySpin]
  · norm_num [classifySpin]
  · norm_num [classifySpin]
  · norm_num [classifySpin]
  · norm_num [classifySpin]

/-- Witness for C4: its first clause applied at the concrete input (1, 2, 3, 0). -/
theorem classifySpin_contract_witness : classifySpin (1:ℚ) 2 3 0 = SpinType.FLAT :=
  classifySpin_contract.1 1 2 3 0 (by norm_num)

/-- Closed form of the per-component error of the iterated bias estimator under
a constant below-threshold reading: each step scales it by 0.998. -/
theorem biasIter_closed (gRaw : Vec3 ℝ)
    (h : Real.sqrt (gRaw.x*gRaw.x + gRaw.y*gRaw.y + gRaw.z*gRaw.z) < 0.15)
    (bias : Vec3 ℝ) (n : ℕ) :
    (biasIter gRaw n bias).x - gRaw.x = 0.998^n * (bias.x - gRaw.x)
    ∧ (biasIter gRaw n bias).y - gRaw.y = 0.998^n * (bias.y - gRaw.y)
    ∧ (biasIter gRaw n bias).z - gRaw.z = 0.998^n * (bias.z - gRaw.z) := by
  induction n with
  | zero => simp [biasIter]
  | succ k ih =>
      obtain ⟨hx, hy, hz⟩ := ih
      have hstep : biasIter gRaw (k+1) bias = biasStep (biasIter gRaw k bias) gRaw := by
        unfold biasIter
        rw [Function.iterate_succ_apply']
      rw [hstep]
      unfold biasStep
      rw [if_pos h]
      refine ⟨?_, ?_, ?_⟩
      · dsimp only
        linear_combination (0.998 : ℝ) * hx
      · dsimp only
        linear_combination (0.998 : ℝ) * hy
      · dsimp only
        linear_combination (0.998 : ℝ) * hz

/-- C5: gyro-bias estimator gating — at or above the 0.15 rad/s stationarity
threshold every component is exactly unchanged (indefinitely, under a sustained
such stream); below it each component moves toward the raw reading with factor
0.002, and a sustained constant below-threshold reading drives the estimate
arbitrarily close to that constant. -/
theorem bias_estimator_gating (bias gRaw : Vec3 ℝ) :
    (0.15 ≤ Real.sqrt (gRaw.x*gRaw.x + gRaw.y*gRaw.y + gRaw.z*gRaw.z) →
       biasStep bias gRaw = bias)
  ∧ (Real.sqrt (gRaw.x*gRaw.x + gRaw.y*gRaw.y + gRaw.z*gRaw.z) < 0.15 →
       biasStep bias gRaw =
         ⟨bias.x + 0.002 * (gRaw.x - bias.x),
          bias.y + 0.002 * (gRaw.y - bias.y),
          bias.z + 0.002 * (gRaw.z - bias.z)⟩)
  ∧ (Real.sqrt (gRaw.x*gRaw.x + gRaw.y*gRaw.y + gRaw.z*gRaw.z) < 0.15 →
       ∀ ε : ℝ, 0 < ε → ∃ N : ℕ, ∀ n : ℕ, N ≤ n →
         |(biasIter gRaw n bias).x - gRaw.x| < ε ∧
         |(biasIter gRaw n bias).y - gRaw.y| < ε ∧
         |(biasIter gRaw n bias).z - gRaw.z| < ε)
  ∧ (0.15 ≤ Real.sqrt (gRaw.x*gRaw.x + gRaw.y*gRaw.y + gRaw.z*gRaw.z) →
       ∀ n : ℕ, biasIter gRaw n bias = bias) := by
  refine ⟨?_, ?_, ?_, ?_⟩
  · intro h
    unfold biasStep
    rw [if_neg (not_lt.mpr h)]
  · intro h
    unfold biasStep
    rw [if_pos h]
  · intro h ε hε
    set M : ℝ := max (max |bias.x - gRaw.x| |bias.y - gRaw.y|) |bias.z - gRaw.z| with hM
    have hM0 : 0 ≤ M := le_trans (abs_nonneg _) (le_max_right _ _)
    have hM1 : (0:ℝ) < M + 1 := by linarith
    obtain ⟨N, hN⟩ := exists_pow_lt_of_lt_one (div_pos hε hM1)
      (show (0.998:ℝ) < 1 by norm_num)
    refine ⟨N, fun n hn => ?_⟩
    have hpow : (0.998:ℝ)^n ≤ 0.998^N :=
      pow_le_pow_of_le_one (by norm_num) (by norm_num) hn
    have hNlt : (0.998:ℝ)^N * (M+1) < ε := (lt_div_iff₀ hM1).mp hN
    have hp0 : (0:ℝ) ≤ 0.998^n := by positivity
    have hpN0 : (0:ℝ) ≤ 0.998^N := by positivity
    obtain ⟨hx, hy, hz⟩ := biasIter_closed gRaw h bias n
    have hmx : |bias.x - gRaw.x| ≤ M := le_trans (le_max_left _ _) (le_max_left _ _)
    have hmy : |bias.y - gRaw.y| ≤ M := le_trans (le_max_right _ _) (le_max_left _ _)
    have hmz : |bias.z - gRaw.z| ≤ M := le_max_right _ _
    refine ⟨?_, ?_, ?_⟩
    · rw [hx, abs_mul, abs_of_nonneg hp0]
      nlinarith [abs_nonneg (bias.x - gRaw.x)]
    · rw [hy, abs_mul, abs_of_nonneg hp0]
      nlinarith [abs_nonneg (bias.y - gRaw.y)]
    · rw [hz, abs_mul, abs_of_nonneg hp0]
      nlinarith [abs_nonneg (bias.z - gRaw.z)]
  · intro h n
    induction n with
    | zero => simp [biasIter]
    | succ k ih =>
        unfold biasIter at ih ⊢
        rw [Function.iterate_succ_apply', ih]
        unfold biasStep
        rw [if_neg (not_lt.mpr h)]

/-- Witness for C5: with a zero raw reading (magnitude 0, below threshold) the
step moves the bias ⟨1, 1, 1⟩ toward zero by factor 0.002. -/
theorem bias_estimator_gating_witness :
    biasStep ⟨1, 1, 1⟩ ⟨0, 0, 0⟩ =
      (⟨1 + 0.002 * (0 - 1), 1 + 0.002 * (0 - 1), 1 + 0.002 * (0 - 1)⟩ : Vec3 ℝ) :=
  (bias_estimator_gating ⟨1, 1, 1⟩ ⟨0, 0, 0⟩).2.1 (by
    rw [show (0:ℝ)*0 + 0*0 + 0*0 = 0 by ring, Real.sqrt_zero]
    norm_num)

/-! Structural lemmas about the loop phases. -/

@[simp]
theorem preState_lastImpactMs (s : LoopState) (i : TickIn) :
    (preState s i).lastImpactMs = s.lastImpactMs := rfl

@[simp]
theorem preState_impactFlag (s : LoopState) (i : TickIn) :
    (preState s i).impactFlag = s.impactFlag := rfl

@[simp]
theorem preState_trackingPeak (s : LoopState) (i : TickIn) :
    (preState s i).trackingPeak = s.trackingPeak := rfl

@[simp]
theorem preState_peakTrackStartMs (s : LoopState) (i : TickIn) :
    (preState s i).peakTrackStartMs = s.peakTrackStartMs := rfl

@[simp]
theorem preState_shots (s : LoopState) (i : TickIn) :
    (preState s i).shots = s.shots := rfl

@[simp]
theorem preState_lastWsSendMs (s : LoopState) (i : TickIn) :
    (preState s i).lastWsSendMs = s.lastWsSendMs := rfl

@[simp]
theorem preState_clientCount (s : LoopState) (i : TickIn) :
    (preState s i).clientCount = s.clientCount := rfl

@[simp]
theorem integratePhase_impactFlag (s : LoopState) (gx gy gz dt : ℝ) :
    (integratePhase s gx gy gz dt).impactFlag = s.impactFlag := rfl

@[simp]
theorem integratePhase_trackingPeak (s : LoopState) (gx gy gz dt : ℝ) :
    (integratePhase s gx gy gz dt).trackingPeak = s.trackingPeak := rfl

@[simp]
theorem integratePhase_shots (s : LoopState) (gx gy gz dt : ℝ) :
    (integratePhase s gx gy gz dt).shots = s.shots := rfl

@[simp]
theorem integratePhase_lastWsSendMs (s : LoopState) (gx gy gz dt : ℝ) :
    (integratePhase s gx gy gz dt).lastWsSendMs = s.lastWsSendMs := rfl

@[simp]
theorem integratePhase_clientCount (s : LoopState) (gx gy gz dt : ℝ) :
    (integratePhase s gx gy gz dt).clientCount = s.clientCount := rfl

@[simp]
theorem integratePhase_lastImpactMs (s : LoopState) (gx gy gz dt : ℝ) :
    (integratePhase s gx gy gz dt).lastImpactMs = s.lastImpactMs := rfl

@[simp]
theorem integratePhase_peakTrackStartMs (s : LoopState) (gx gy gz dt : ℝ) :
    (integratePhase s gx gy gz dt).peakTrackStartMs = s.peakTrackStartMs := rfl

theorem impactPhase_pos (s : LoopState) (nowMs : ℕ) (a : ℝ)
    (h : a > 4 ∧ usub32 nowMs s.lastImpactMs > 200) :
    impactPhase s nowMs a =
      ({ s with
          lastImpactMs := nowMs
          impactFlag := true
          trackingPeak := true
          peakTrackStartMs := nowMs
          peakRPMval := s.filtRPM
          peakGval := a
          peakGx := s.filtGx
          peakGy := s.filtGy
          peakGz := s.filtGz },
       [Ev.trigger]) := by
  unfold impactPhase
  rw [if_pos h]

theorem impactPhase_neg (s : LoopState) (nowMs : ℕ) (a : ℝ)
    (h : ¬(a > 4 ∧ usub32 nowMs s.lastImpactMs > 200)) :
    impactPhase s nowMs a = (s, []) := by
  unfold impactPhase
  rw [if_neg h]

theorem trackPhase_events (s : LoopState) (nowMs : ℕ) (a : ℝ) :
    (trackPhase s nowMs a).2 = []
    ∨ ∃ p1 p2 p3 p4 idx, (trackPhase s nowMs a).2 =
        [Ev.shotClassified p1 p2 p3 p4, Ev.shotSent idx] := by
  simp only [trackPhase]
  split_ifs <;> first
    | (left; rfl)
    | (right; exact ⟨_, _, _, _, _, rfl⟩)

theorem trackPhase_fields (s : LoopState) (nowMs : ℕ) (a : ℝ) :
    (trackPhase s nowMs a).1.impactFlag = s.impactFlag
    ∧ (trackPhase s nowMs a).1.lastImpactMs = s.lastImpactMs
    ∧ (trackPhase s nowMs a).1.lastWsSendMs = s.lastWsSendMs
    ∧ (trackPhase s nowMs a).1.clientCount = s.clientCount
    ∧ (trackPhase s nowMs a).1.filtGx = s.filtGx
    ∧ (trackPhase s nowMs a).1.filtGy = s.filtGy
    ∧ (trackPhase s nowMs a).1.filtGz = s.filtGz
    ∧ (trackPhase s nowMs a).1.filtRPM = s.filtRPM := by
  simp only [trackPhase]
  split_ifs <;> exact ⟨rfl, rfl, rfl, rfl, rfl, rfl, rfl, rfl⟩

theorem trackPhase_shots (s : LoopState) (nowMs : ℕ) (a : ℝ) :
    (trackPhase s nowMs a).1.shots = s.shots
    ∨ (s.shots.length < MAX_SHOTS ∧ ∃ r, (trackPhase s nowMs a).1.shots = s.shots ++ [r]) := by
  simp only [trackPhase]
  split_ifs <;> first
    | (left; rfl)
    | (right; exact ⟨by assumption, _, rfl⟩)

theorem sendPhase_pos (s : LoopState) (nowMs : ℕ)
    (h : 20 ≤ usub32 nowMs s.lastWsSendMs ∧ 0 < s.clientCount) :
    sendPhase s nowMs =
      ({ s with
          lastWsSendMs := nowMs
          impactFlag := if s.impactFlag then false else s.impactFlag },
       [Ev.sampleClassified s.filtGx s.filtGy s.filtGz s.filtRPM,
        Ev.sampleSent s.impactFlag]) := by
  unfold sendPhase
  rw [if_pos h]

theorem sendPhase_neg (s : LoopState) (nowMs : ℕ)
    (h : ¬(20 ≤ usub32 nowMs s.lastWsSendMs ∧ 0 < s.clientCount)) :
    sendPhase s nowMs = (s, []) := by
  unfold sendPhase
  rw [if_neg h]

/-! Lemmas relating the phases to the reference impact-flag machine. -/

theorem sentFlagsOk_impactPhase (s : LoopState) (nowMs : ℕ) (a : ℝ) (b : Bool) :
    sentFlagsOk b (impactPhase s nowMs a).2 := by
  unfold impactPhase
  split_ifs <;> simp [sentFlagsOk]

theorem flagSpec_impactPhase (s : LoopState) (nowMs : ℕ) (a : ℝ) :
    (impactPhase s nowMs a).1.impactFlag = flagSpec s.impactFlag (impactPhase s nowMs a).2 := by
  unfold impactPhase
  split_ifs <;> simp [flagSpec]

theorem trackPhase_skip (s : LoopState) (nowMs : ℕ) (a : ℝ) (b : Bool) :
    flagSpec b (trackPhase s nowMs a).2 = b ∧ sentFlagsOk b (trackPhase s nowMs a).2 := by
  rcases trackPhase_events s nowMs a with h | ⟨p1, p2, p3, p4, idx, h⟩ <;>
    rw [h] <;> exact ⟨rfl, by simp [sentFlagsOk]⟩

theorem sendPhase_flagSpec (s : LoopState) (nowMs : ℕ) :
    sentFlagsOk s.impactFlag (sendPhase s nowMs).2
    ∧ (sendPhase s nowMs).1.impactFlag = flagSpec s.impactFlag (sendPhase s nowMs).2 := by
  unfold sendPhase
  split_ifs with h hb <;> simp_all [sentFlagsOk, flagSpec]

theorem flagSpec_append (l1 l2 : List Ev) (b : Bool) :
    flagSpec b (l1 ++ l2) = flagSpec (flagSpec b l1) l2 := by
  induction l1 generalizing b with
  | nil => rfl
  | cons e r ih => cases e <;> simp [flagSpec, ih]

theorem sentFlagsOk_append (l1 l2 : List Ev) (b : Bool)
    (h1 : sentFlagsOk b l1) (h2 : sentFlagsOk (flagSpec b l1) l2) :
    sentFlagsOk b (l1 ++ l2) := by
  induction l1 generalizing b with
  | nil => exact h2
  | cons e r ih =>
      cases e with
      | trigger =>
          simp only [flagSpec] at h2
          simp only [sentFlagsOk] at h1 ⊢
          exact ih true h1 h2
      | sampleSent x =>
          simp only [flagSpec] at h2
          simp only [sentFlagsOk] at h1 ⊢
          exact ⟨h1.1, ih false h1.2 h2⟩
      | shotClassified p1 p2 p3 p4 =>
          simp only [flagSpec] at h2
          simp only [sentFlagsOk] at h1 ⊢
          exact ih b h1 h2
      | shotSent idx =>
          simp only [flagSpec] at h2
          simp only [sentFlagsOk] at h1 ⊢
          exact ih b h1 h2
      | sampleClassified p1 p2 p3 p4 =>
          simp only [flagSpec] at h2
          simp only [sentFlagsOk] at h1 ⊢
          exact ih b h1 h2

/-- One tick respects the reference impact-flag machine. -/
theorem tick_flag (s : LoopState) (i : TickIn) :
    sentFlagsOk s.impactFlag (tick s i).2
    ∧ (tick s i).1.impactFlag = flagSpec s.impactFlag (tick s i).2 := by
  simp only [tick]
  set s1 := preState s i with hs1
  set a := accelMagOf i.d with haM
  set r2 := impactPhase s1 i.nowMs a with hr2
  set r3 := trackPhase r2.1 i.nowMs a with hr3
  set s4 := integratePhase r3.1 (i.d.gx * (Real.pi / 180) - s1.gyroBias.x)
    (i.d.gy * (Real.pi / 180) - s1.gyroBias.y)
    (i.d.gz * (Real.pi / 180) - s1.gyroBias.z) (dtOf s.lastUs i.nowUs) with hs4
  set r5 := sendPhase s4 i.nowMs with hr5
  have h1f : s1.impactFlag = s.impactFlag := rfl
  have h2send := sentFlagsOk_impactPhase s1 i.nowMs a s.impactFlag
  have h2spec : r2.1.impactFlag = flagSpec s.impactFlag r2.2 := by
    rw [hr2, ← h1f]
    exact flagSpec_impactPhase s1 i.nowMs a
  have h3 := trackPhase_skip r2.1 i.nowMs a r2.1.impactFlag
  have h3f : r3.1.impactFlag = r2.1.impactFlag := (trackPhase_fields r2.1 i.nowMs a).1
  have h4f : s4.impactFlag = r3.1.impactFlag := rfl
  have h5 := sendPhase_flagSpec s4 i.nowMs
  constructor
  · apply sentFlagsOk_append
    · apply sentFlagsOk_append
      · exact h2send
      · rw [← h2spec]
        exact h3.2
    · rw [flagSpec_append, ← h2spec, h3.1, ← h3f, ← h4f]
      exact h5.1
  · rw [flagSpec_append, flagSpec_append, ← h2spec, h3.1, ← h3f, ← h4f]
    exact h5.2

/-- Any run respects the reference impact-flag machine. -/
theorem run_flag (l : List TickIn) (s : LoopState) :
    sentFlagsOk s.impactFlag (run s l).2
    ∧ (run s l).1.impactFlag = flagSpec s.impactFlag (run s l).2 := by
  induction l generalizing s with
  | nil => exact ⟨trivial, rfl⟩
  | cons i rest ih =>
      simp only [run]
      obtain ⟨ht1, ht2⟩ := tick_flag s i
      obtain ⟨hr1, hr2⟩ := ih (tick s i).1
      constructor
      · apply sentFlagsOk_append
        · exact ht1
        · rw [← ht2]
          exact hr1
      · rw [flagSpec_append, ← ht2]
        exact hr2

/-- C7: the impact flag is edge-triggered — over any input sequence from
startup, every emitted sample message carries imp = 1 exactly when at least one
impact trigger occurred since the previous sample message (or since startup for
the first one), and the stored flag always equals the reference machine that is
set by a trigger, cleared only by a sample emission, and carried otherwise. -/
theorem impact_flag_edge_triggered (l : List TickIn) :
    sentFlagsOk false (run initState l).2
    ∧ (run initState l).1.impactFlag = flagSpec false (run initState l).2 :=
  run_flag l initState

/-! Further structural lemmas used to evaluate concrete runs. -/

theorem usub32_self (a : ℕ) : usub32 a a = 0 := by
  unfold usub32
  omega

theorem usub32_small (a b : ℕ) (h1 : b ≤ a) (h2 : a - b < 2^32) : usub32 a b = a - b := by
  unfold usub32
  omega

theorem impactPhase_fields (s : LoopState) (nowMs : ℕ) (a : ℝ) :
    (impactPhase s nowMs a).1.shots = s.shots
    ∧ (impactPhase s nowMs a).1.clientCount = s.clientCount
    ∧ (impactPhase s nowMs a).1.lastWsSendMs = s.lastWsSendMs
    ∧ (impactPhase s nowMs a).1.filtGx = s.filtGx
    ∧ (impactPhase s nowMs a).1.filtGy = s.filtGy
    ∧ (impactPhase s nowMs a).1.filtGz = s.filtGz
    ∧ (impactPhase s nowMs a).1.filtRPM = s.filtRPM
    ∧ (impactPhase s nowMs a).1.orient = s.orient := by
  unfold impactPhase
  split_ifs <;> exact ⟨rfl, rfl, rfl, rfl, rfl, rfl, rfl, rfl⟩

theorem trackPhase_more (s : LoopState) (nowMs : ℕ) (a : ℝ) :
    (trackPhase s nowMs a).1.peakTrackStartMs = s.peakTrackStartMs
    ∧ (trackPhase s nowMs a).1.orient = s.orient := by
  simp only [trackPhase]
  split_ifs <;> exact ⟨rfl, rfl⟩

theorem trackPhase_tracking_mono (s : LoopState) (nowMs : ℕ) (a : ℝ)
    (h : (trackPhase s nowMs a).1.trackingPeak = true) : s.trackingPeak = true := by
  by_cases ht : s.trackingPeak = true
  · exact ht
  · rw [show trackPhase s nowMs a = (s, []) from by
      simp only [trackPhase]
      rw [if_neg ht]] at h
    exact h

theorem trackPhase_notTracking (s : LoopState) (nowMs : ℕ) (a : ℝ)
    (ht : s.trackingPeak = false) : trackPhase s nowMs a = (s, []) := by
  simp only [trackPhase]
  rw [if_neg (by rw [ht]; exact Bool.false_ne_true)]

theorem trackPhase_open_nomax (s : LoopState) (nowMs : ℕ) (a : ℝ)
    (ht : s.trackingPeak = true)
    (h1 : ¬(s.filtRPM > s.peakRPMval)) (h2 : ¬(a > s.peakGval))
    (h3 : ¬(|s.filtGx| + |s.filtGy| + |s.filtGz| > |s.peakGx| + |s.peakGy| + |s.peakGz|))
    (h4 : ¬(usub32 nowMs s.peakTrackStartMs > 100)) :
    trackPhase s nowMs a = (s, []) := by
  simp only [trackPhase]
  simp only [if_pos ht, if_neg h1, if_neg h2, if_neg h3, if_neg h4]

theorem trackPhase_open_close (s : LoopState) (nowMs : ℕ) (a : ℝ)
    (ht : s.trackingPeak = true)
    (h1 : ¬(s.filtRPM > s.peakRPMval)) (h2 : ¬(a > s.peakGval))
    (h3 : ¬(|s.filtGx| + |s.filtGy| + |s.filtGz| > |s.peakGx| + |s.peakGy| + |s.peakGz|))
    (h4 : usub32 nowMs s.peakTrackStartMs > 100)
    (h5 : s.shots.length < MAX_SHOTS) :
    trackPhase s nowMs a =
      ({ s with
          trackingPeak := false
          shots := s.shots ++ [⟨s.lastImpactMs, s.peakRPMval, s.peakGval, s.peakGx, s.peakGy,
            s.peakGz, classifySpin s.peakGx s.peakGy s.peakGz s.peakRPMval⟩] },
       [Ev.shotClassified s.peakGx s.peakGy s.peakGz s.peakRPMval,
        Ev.shotSent s.shots.length]) := by
  simp only [trackPhase]
  simp only [if_pos ht, if_neg h1, if_neg h2, if_neg h3, if_pos h4, if_pos h5]

theorem trackPhase_close_full (s : LoopState) (nowMs : ℕ) (a : ℝ)
    (ht : s.trackingPeak = true)
    (h4 : usub32 nowMs s.peakTrackStartMs > 100)
    (h5 : ¬(s.shots.length < MAX_SHOTS)) :
    (trackPhase s nowMs a).1.shots = s.shots
    ∧ (trackPhase s nowMs a).1.trackingPeak = false
    ∧ (trackPhase s nowMs a).2 = [] := by
  simp only [trackPhase]
  rw [if_pos ht, if_pos h4, if_neg h5]
  exact ⟨rfl, rfl, rfl⟩

theorem sendPhase_fields (s : LoopState) (nowMs : ℕ) :
    (sendPhase s nowMs).1.shots = s.shots
    ∧ (sendPhase s nowMs).1.trackingPeak = s.trackingPeak
    ∧ (sendPhase s nowMs).1.lastImpactMs = s.lastImpactMs
    ∧ (sendPhase s nowMs).1.peakTrackStartMs = s.peakTrackStartMs
    ∧ (sendPhase s nowMs).1.clientCount = s.clientCount
    ∧ (sendPhase s nowMs).1.orient = s.orient := by
  unfold sendPhase
  split_ifs <;> exact ⟨rfl, rfl, rfl, rfl, rfl, rfl⟩

theorem sendPhase_events (s : LoopState) (nowMs : ℕ) :
    (sendPhase s nowMs).2 = []
    ∨ ∃ g1 g2 g3 r b, (sendPhase s nowMs).2 =
        [Ev.sampleClassified g1 g2 g3 r, Ev.sampleSent b] := by
  unfold sendPhase
  split_ifs <;> first
    | (left; rfl)
    | (right; exact ⟨_, _, _, _, _, rfl⟩)

theorem biasStep_zero : biasStep ⟨0, 0, 0⟩ ⟨0, 0, 0⟩ = (⟨0, 0, 0⟩ : Vec3 ℝ) := by
  unfold biasStep
  rw [if_pos (by rw [show (0:ℝ)*0 + 0*0 + 0*0 = 0 by ring, Real.sqrt_zero]; norm_num)]
  refine Vec3.ext ?_ ?_ ?_ <;> norm_num

theorem integrateStep_zero (q : Quat ℝ) (dt : ℝ) : integrateStep q 0 0 0 dt = q := by
  unfold integrateStep
  rw [if_neg (by rw [show (0:ℝ)*0 + 0*0 + 0*0 = 0 by ring, Real.sqrt_zero]; norm_num)]

theorem integratePhase_zero (s : LoopState) (dt : ℝ) : integratePhase s 0 0 0 dt = s := by
  unfold integratePhase
  rw [integrateStep_zero]

theorem accelMag_spike : accelMagOf ⟨5, 0, 0, 0, 0, 0⟩ = 5 := by
  unfold accelMagOf
  rw [show (5:ℝ)*5 + 0*0 + 0*0 = 5*5 by ring, Real.sqrt_mul_self (by norm_num : (0:ℝ) ≤ 5)]

theorem accelMag_quiet : accelMagOf ⟨0, 0, 0, 0, 0, 0⟩ = 0 := by
  unfold accelMagOf
  rw [show (0:ℝ)*0 + 0*0 + 0*0 = 0 by ring, Real.sqrt_zero]

theorem preState_zero (s : LoopState) (ms : ℕ) (aval : ℝ)
    (hgx : s.filtGx = 0) (hgy : s.filtGy = 0) (hgz : s.filtGz = 0) (hrpm : s.filtRPM = 0)
    (hb : s.gyroBias = ⟨0, 0, 0⟩) (hu : s.lastUs = 0) :
    preState s ⟨0, ms, ⟨aval, 0, 0, 0, 0, 0⟩⟩ = s := by
  simp [preState, LoopState.ext_iff, hgx, hgy, hgz, hrpm, hb, hu, biasStep_zero]

theorem tick_simple (s : LoopState) (ms : ℕ) (aval : ℝ)
    (hgx : s.filtGx = 0) (hgy : s.filtGy = 0) (hgz : s.filtGz = 0) (hrpm : s.filtRPM = 0)
    (hb : s.gyroBias = ⟨0, 0, 0⟩) (hcc : s.clientCount = 0) (hu : s.lastUs = 0) :
    tick s ⟨0, ms, ⟨aval, 0, 0, 0, 0, 0⟩⟩ =
      ((trackPhase (impactPhase s ms (accelMagOf ⟨aval, 0, 0, 0, 0, 0⟩)).1 ms
          (accelMagOf ⟨aval, 0, 0, 0, 0, 0⟩)).1,
       (impactPhase s ms (accelMagOf ⟨aval, 0, 0, 0, 0, 0⟩)).2
         ++ (trackPhase (impactPhase s ms (accelMagOf ⟨aval, 0, 0, 0, 0, 0⟩)).1 ms
              (accelMagOf ⟨aval, 0, 0, 0, 0, 0⟩)).2) := by
  have hpre : preState s ⟨0, ms, ⟨aval, 0, 0, 0, 0, 0⟩⟩ = s :=
    preState_zero s ms aval hgx hgy hgz hrpm hb hu
  simp only [tick]
  rw [hpre, hb]
  have hax : (0:ℝ) * (Real.pi / 180) - (⟨0, 0, 0⟩ : Vec3 ℝ).x = 0 := by
    show (0:ℝ) * (Real.pi / 180) - 0 = 0
    ring
  rw [hax, integratePhase_zero]
  have hcc2 : (trackPhase (impactPhase s ms (accelMagOf ⟨aval, 0, 0, 0, 0, 0⟩)).1 ms
      (accelMagOf ⟨aval, 0, 0, 0, 0, 0⟩)).1.clientCount = 0 := by
    rw [(trackPhase_fields _ _ _).2.2.2.1, (impactPhase_fields _ _ _).2.1]
    exact hcc
  have hnos : ¬(20 ≤ usub32 ms (trackPhase (impactPhase s ms
        (accelMagOf ⟨aval, 0, 0, 0, 0, 0⟩)).1 ms
        (accelMagOf ⟨aval, 0, 0, 0, 0, 0⟩)).1.lastWsSendMs
      ∧ 0 < (trackPhase (impactPhase s ms (accelMagOf ⟨aval, 0, 0, 0, 0, 0⟩)).1 ms
        (accelMagOf ⟨aval, 0, 0, 0, 0, 0⟩)).1.clientCount) := by
    rw [hcc2]
    exact fun hc => absurd hc.2 (by omega)
  rw [sendPhase_neg _ _ hnos, List.append_nil]

theorem classify_zero_real : classifySpin (0:ℝ) 0 0 0 = SpinType.FLAT := by
  simp only [classifySpin]
  rw [if_pos (by norm_num)]

theorem tick_T1 : tick initState (spikeAt 1000) = (trkState 1000 [], [Ev.trigger]) := by
  have h := tick_simple initState 1000 5 rfl rfl rfl rfl rfl rfl rfl
  rw [accelMag_spike] at h
  rw [show spikeAt 1000 = (⟨0, 1000, ⟨5, 0, 0, 0, 0, 0⟩⟩ : TickIn) from rfl, h]
  have himp : impactPhase initState 1000 5 = (trkState 1000 [], [Ev.trigger]) := by
    rw [impactPhase_pos initState 1000 5
      ⟨by norm_num, by norm_num [usub32, initState]⟩]
    rfl
  rw [himp]
  have htr : trackPhase (trkState 1000 []) 1000 5 = (trkState 1000 [], []) := by
    apply trackPhase_open_nomax
    · rfl
    · norm_num [trkState, initState]
    · norm_num [trkState, initState]
    · norm_num [trkState, initState]
    · norm_num [trkState, initState, usub32]
  rw [htr]
  rfl

theorem tick_T2 : tick (trkState 1000 []) (spikeAt 1150) =
    (idlState 1000 [shotRec 1000], [Ev.shotClassified 0 0 0 0, Ev.shotSent 0]) := by
  have h := tick_simple (trkState 1000 []) 1150 5 rfl rfl rfl rfl rfl rfl rfl
  rw [accelMag_spike] at h
  rw [show spikeAt 1150 = (⟨0, 1150, ⟨5, 0, 0, 0, 0, 0⟩⟩ : TickIn) from rfl, h]
  rw [impactPhase_neg _ _ _ (by norm_num [trkState, initState, usub32])]
  rw [trackPhase_open_close (trkState 1000 []) 1150 5 rfl
    (by norm_num [trkState, initState]) (by norm_num [trkState, initState])
    (by norm_num [trkState, initState]) (by norm_num [trkState, initState, usub32])
    (by norm_num [trkState, initState, MAX_SHOTS])]
  simp [trkState, idlState, initState, shotRec, classify_zero_real]

theorem tick_T3 : tick (idlState 1000 [shotRec 1000]) (quietAt 1300) =
    (idlState 1000 [shotRec 1000], []) := by
  have h := tick_simple (idlState 1000 [shotRec 1000]) 1300 0 rfl rfl rfl rfl rfl rfl rfl
  rw [accelMag_quiet] at h
  rw [show quietAt 1300 = (⟨0, 1300, ⟨0, 0, 0, 0, 0, 0⟩⟩ : TickIn) from rfl, h]
  rw [impactPhase_neg _ _ _ (by norm_num)]
  rw [trackPhase_notTracking _ _ _ rfl]
  rfl

theorem tick_T4 : tick (trkState 1000 []) (quietAt 1150) =
    (idlState 1000 [shotRec 1000], [Ev.shotClassified 0 0 0 0, Ev.shotSent 0]) := by
  have h := tick_simple (trkState 1000 []) 1150 0 rfl rfl rfl rfl rfl rfl rfl
  rw [accelMag_quiet] at h
  rw [show quietAt 1150 = (⟨0, 1150, ⟨0, 0, 0, 0, 0, 0⟩⟩ : TickIn) from rfl, h]
  rw [impactPhase_neg _ _ _ (by norm_num)]
  rw [trackPhase_open_close (trkState 1000 []) 1150 0 rfl
    (by norm_num [trkState, initState]) (by norm_num [trkState, initState])
    (by norm_num [trkState, initState]) (by norm_num [trkState, initState, usub32])
    (by norm_num [trkState, initState, MAX_SHOTS])]
  simp [trkState, idlState, initState, shotRec, classify_zero_real]

theorem tick_T5 : tick (idlState 1000 [shotRec 1000]) (spikeAt 1300) =
    (trkState 1300 [shotRec 1000], [Ev.trigger]) := by
  have h := tick_simple (idlState 1000 [shotRec 1000]) 1300 5 rfl rfl rfl rfl rfl rfl rfl
  rw [accelMag_spike] at h
  rw [show spikeAt 1300 = (⟨0, 1300, ⟨5, 0, 0, 0, 0, 0⟩⟩ : TickIn) from rfl, h]
  have himp : impactPhase (idlState 1000 [shotRec 1000]) 1300 5 =
      (trkState 1300 [shotRec 1000], [Ev.trigger]) := by
    rw [impactPhase_pos _ _ _ ⟨by norm_num, by norm_num [idlState, initState, usub32]⟩]
    rfl
  rw [himp]
  have htr : trackPhase (trkState 1300 [shotRec 1000]) 1300 5 =
      (trkState 1300 [shotRec 1000], []) := by
    apply trackPhase_open_nomax
    · rfl
    · norm_num [trkState, initState]
    · norm_num [trkState, initState]
    · norm_num [trkState, initState]
    · norm_num [trkState, initState, usub32]
  rw [htr]
  rfl

theorem tick_T6 : tick (trkState 1300 [shotRec 1000]) (quietAt 1450) =
    (idlState 1300 [shotRec 1000, shotRec 1300],
     [Ev.shotClassified 0 0 0 0, Ev.shotSent 1]) := by
  have h := tick_simple (trkState 1300 [shotRec 1000]) 1450 0 rfl rfl rfl rfl rfl rfl rfl
  rw [accelMag_quiet] at h
  rw [show quietAt 1450 = (⟨0, 1450, ⟨0, 0, 0, 0, 0, 0⟩⟩ : TickIn) from rfl, h]
  rw [impactPhase_neg _ _ _ (by norm_num)]
  rw [trackPhase_open_close (trkState 1300 [shotRec 1000]) 1450 0 rfl
    (by norm_num [trkState, initState]) (by norm_num [trkState, initState])
    (by norm_num [trkState, initState]) (by norm_num [trkState, initState, usub32])
    (by norm_num [trkState, initState, MAX_SHOTS])]
  simp [trkState, idlState, initState, shotRec, classify_zero_real]

theorem runClose_eval : run initState scenClose =
    (idlState 1000 [shotRec 1000],
     [Ev.trigger, Ev.shotClassified 0 0 0 0, Ev.shotSent 0]) := by
  simp only [scenClose, run]
  rw [tick_T1]
  simp only []
  rw [tick_T2]
  simp only []
  rw [tick_T3]
  rfl

theorem runApart_eval : run initState scenApart =
    (idlState 1300 [shotRec 1000, shotRec 1300],
     [Ev.trigger, Ev.shotClassified 0 0 0 0, Ev.shotSent 0,
      Ev.trigger, Ev.shotClassified 0 0 0 0, Ev.shotSent 1]) := by
  simp only [scenApart, run]
  rw [tick_T1]
  simp only []
  rw [tick_T4]
  simp only []
  rw [tick_T5]
  simp only []
  rw [tick_T6]
  rfl

theorem trackInv_impactPhase (s : LoopState) (nowMs : ℕ) (a : ℝ) (hs : trackInv s) :
    trackInv (impactPhase s nowMs a).1 := by
  by_cases h : a > 4 ∧ usub32 nowMs s.lastImpactMs > 200
  · rw [impactPhase_pos s nowMs a h]
    intro _
    rfl
  · rw [impactPhase_neg s nowMs a h]
    exact hs

theorem trackInv_trackPhase (s : LoopState) (nowMs : ℕ) (a : ℝ) (hs : trackInv s) :
    trackInv (trackPhase s nowMs a).1 := by
  intro hh
  rw [(trackPhase_fields s nowMs a).2.1, (trackPhase_more s nowMs a).1]
  exact hs (trackPhase_tracking_mono s nowMs a hh)

theorem trackInv_sendPhase (s : LoopState) (nowMs : ℕ) (hs : trackInv s) :
    trackInv (sendPhase s nowMs).1 := by
  intro hh
  rw [(sendPhase_fields s nowMs).2.2.1, (sendPhase_fields s nowMs).2.2.2.1]
  exact hs (by rw [← (sendPhase_fields s nowMs).2.1]; exact hh)

theorem tick_trackInv (s : LoopState) (i : TickIn) (hs : trackInv s) :
    trackInv (tick s i).1 := by
  simp only [tick]
  apply trackInv_sendPhase
  intro hh
  rw [integratePhase_lastImpactMs, integratePhase_peakTrackStartMs]
  rw [integratePhase_trackingPeak] at hh
  exact trackInv_trackPhase (impactPhase (preState s i) i.nowMs (accelMagOf i.d)).1
    i.nowMs (accelMagOf i.d)
    (trackInv_impactPhase (preState s i) i.nowMs (accelMagOf i.d) (fun hx => hs hx)) hh

theorem tick_no_trigger (s : LoopState) (i : TickIn) (hs : trackInv s)
    (ht : s.trackingPeak = true) (hw : usub32 i.nowMs s.peakTrackStartMs ≤ 100) :
    Ev.trigger ∉ (tick s i).2 := by
  simp only [tick]
  have hcond : ¬(accelMagOf i.d > 4 ∧ usub32 i.nowMs (preState s i).lastImpactMs > 200) := by
    rw [preState_lastImpactMs, hs ht]
    exact fun hc => absurd hc.2 (by omega)
  rw [impactPhase_neg _ _ _ hcond]
  intro hmem
  simp only [List.mem_append] at hmem
  rcases hmem with (hm | hm) | hm
  · simp at hm
  · rcases trackPhase_events (preState s i, ([] : List Ev)).1 i.nowMs (accelMagOf i.d) with
      he | ⟨p1, p2, p3, p4, idx, he⟩ <;> rw [he] at hm <;> simp at hm
  · rcases sendPhase_events (integratePhase
        (trackPhase (preState s i, ([] : List Ev)).1 i.nowMs (accelMagOf i.d)).1
        (i.d.gx * (Real.pi / 180) - (preState s i).gyroBias.x)
        (i.d.gy * (Real.pi / 180) - (preState s i).gyroBias.y)
        (i.d.gz * (Real.pi / 180) - (preState s i).gyroBias.z)
        (dtOf s.lastUs i.nowUs)) i.nowMs with
      he | ⟨g1, g2, g3, r, b, he⟩ <;> rw [he] at hm <;> simp at hm

/-- C8: no re-trigger while the peak window is open — in reachable states the
debounce reference equals the window-open time (an invariant of every tick), so
while fewer than 100 ms have passed since the window opened, the 200 ms
debounce makes the trigger condition unsatisfiable and no trigger event can
occur; and the spec's two-spike experiments: spikes 150 ms apart yield one
Tracking episode and one shot record, spikes 300 ms apart yield two of each. -/
theorem no_retrigger_while_tracking :
    trackInv initState
    ∧ (∀ s i, trackInv s → trackInv (tick s i).1)
    ∧ (∀ s i, trackInv s → s.trackingPeak = true →
        usub32 i.nowMs s.peakTrackStartMs ≤ 100 → Ev.trigger ∉ (tick s i).2)
    ∧ (run initState scenClose).2.countP isTrigger = 1
    ∧ (run initState scenClose).2.countP isShotSent = 1
    ∧ (run initState scenApart).2.countP isTrigger = 2
    ∧ (run initState scenApart).2.countP isShotSent = 2 := by
  refine ⟨?_, ?_, ?_, ?_, ?_, ?_, ?_⟩
  · intro h
    rfl
  · exact fun s i hs => tick_trackInv s i hs
  · exact fun s i hs ht hw => tick_no_trigger s i hs ht hw
  · rw [runClose_eval]
    simp [List.countP_cons, isTrigger]
  · rw [runClose_eval]
    simp [List.countP_cons, isShotSent]
  · rw [runApart_eval]
    simp [List.countP_cons, isTrigger]
  · rw [runApart_eval]
    simp [List.countP_cons, isShotSent]

/-- Witness for C8: in a mid-window state (50 ms after the trigger), a 5 g
spike does not produce a trigger event. -/
theorem no_retrigger_while_tracking_witness :
    Ev.trigger ∉ (tick sTrack ⟨0, 1050, ⟨5, 0, 0, 0, 0, 0⟩⟩).2 :=
  no_retrigger_while_tracking.2.2.1 sTrack ⟨0, 1050, ⟨5, 0, 0, 0, 0, 0⟩⟩
    (fun _ => rfl) rfl (by norm_num [sTrack, initState, usub32])

theorem sendPhase_cases (s : LoopState) (nowMs : ℕ) :
    sendPhase s nowMs = (s, [])
    ∨ (sendPhase s nowMs).2 =
        [Ev.sampleClassified s.filtGx s.filtGy s.filtGz s.filtRPM,
         Ev.sampleSent s.impactFlag] := by
  unfold sendPhase
  split_ifs <;> first
    | (left; rfl)
    | (right; rfl)

theorem mem_sendPhase (s : LoopState) (nowMs : ℕ) (x : Ev)
    (hm : x ∈ (sendPhase s nowMs).2) :
    (∃ g1 g2 g3 r, x = Ev.sampleClassified g1 g2 g3 r) ∨ ∃ b, x = Ev.sampleSent b := by
  rcases sendPhase_events s nowMs with he | ⟨g1, g2, g3, r, b, he⟩ <;> rw [he] at hm
  · simp at hm
  · rcases List.mem_cons.mp hm with h | h
    · exact Or.inl ⟨g1, g2, g3, r, h⟩
    · exact Or.inr ⟨b, List.mem_singleton.mp h⟩

theorem tick_shots_bound (s : LoopState) (i : TickIn)
    (h : s.shots.length ≤ MAX_SHOTS) : (tick s i).1.shots.length ≤ MAX_SHOTS := by
  simp only [tick]
  rw [(sendPhase_fields _ _).1, integratePhase_shots]
  rcases trackPhase_shots (impactPhase (preState s i) i.nowMs (accelMagOf i.d)).1 i.nowMs
      (accelMagOf i.d) with hsh | ⟨hlt, r, hsh⟩
  · rw [hsh, (impactPhase_fields _ _ _).1, preState_shots]
    exact h
  · rw [(impactPhase_fields _ _ _).1, preState_shots] at hlt
    rw [hsh, (impactPhase_fields _ _ _).1, preState_shots, List.length_append,
      List.length_singleton]
    omega

theorem run_shots_bound (l : List TickIn) (s : LoopState)
    (h : s.shots.length ≤ MAX_SHOTS) : (run s l).1.shots.length ≤ MAX_SHOTS := by
  induction l generalizing s with
  | nil => exact h
  | cons i rest ih => exact ih (tick s i).1 (tick_shots_bound s i h)

theorem tick_full_close (s : LoopState) (i : TickIn)
    (ht : s.trackingPeak = true)
    (hnt : ¬(accelMagOf i.d > 4 ∧ usub32 i.nowMs s.lastImpactMs > 200))
    (hcl : usub32 i.nowMs s.peakTrackStartMs > 100)
    (hfull : s.shots.length = MAX_SHOTS) :
    (tick s i).1.shots = s.shots
    ∧ (tick s i).1.trackingPeak = false
    ∧ (∀ idx, Ev.shotSent idx ∉ (tick s i).2)
    ∧ (∀ a b c r, Ev.shotClassified a b c r ∉ (tick s i).2) := by
  simp only [tick]
  have hnt' : ¬(accelMagOf i.d > 4 ∧ usub32 i.nowMs (preState s i).lastImpactMs > 200) := by
    rw [preState_lastImpactMs]
    exact hnt
  rw [impactPhase_neg _ _ _ hnt']
  have hcf := trackPhase_close_full (preState s i, ([] : List Ev)).1 i.nowMs (accelMagOf i.d)
    ht hcl (by
      show ¬(s.shots.length < MAX_SHOTS)
      omega)
  refine ⟨?_, ?_, ?_, ?_⟩
  · rw [(sendPhase_fields _ _).1, integratePhase_shots, hcf.1]
    rfl
  · rw [(sendPhase_fields _ _).2.1, integratePhase_trackingPeak, hcf.2.1]
  · intro idx hmem
    simp only [List.mem_append] at hmem
    rcases hmem with (hm | hm) | hm
    · simp at hm
    · rw [hcf.2.2] at hm
      simp at hm
    · rcases mem_sendPhase _ _ _ hm with ⟨g1, g2, g3, r, hx⟩ | ⟨b, hx⟩ <;> simp at hx
  · intro a b c r hmem
    simp only [List.mem_append] at hmem
    rcases hmem with (hm | hm) | hm
    · simp at hm
    · rw [hcf.2.2] at hm
      simp at hm
    · rcases mem_sendPhase _ _ _ hm with ⟨g1, g2, g3, rr, hx⟩ | ⟨bb, hx⟩ <;> simp at hx

theorem tick_trigger_flag (s : LoopState) (i : TickIn)
    (h4g : accelMagOf i.d > 4) (hdb : usub32 i.nowMs s.lastImpactMs > 200) :
    (tick s i).1.impactFlag = true ∨ Ev.sampleSent true ∈ (tick s i).2 := by
  simp only [tick]
  have htr' : accelMagOf i.d > 4 ∧ usub32 i.nowMs (preState s i).lastImpactMs > 200 := by
    rw [preState_lastImpactMs]
    exact ⟨h4g, hdb⟩
  have h4 : (integratePhase (trackPhase (impactPhase (preState s i) i.nowMs
      (accelMagOf i.d)).1 i.nowMs (accelMagOf i.d)).1
      (i.d.gx * (Real.pi / 180) - (preState s i).gyroBias.x)
      (i.d.gy * (Real.pi / 180) - (preState s i).gyroBias.y)
      (i.d.gz * (Real.pi / 180) - (preState s i).gyroBias.z)
      (dtOf s.lastUs i.nowUs)).impactFlag = true := by
    rw [integratePhase_impactFlag, (trackPhase_fields _ _ _).1,
      impactPhase_pos _ _ _ htr']
  rcases sendPhase_cases (integratePhase (trackPhase (impactPhase (preState s i) i.nowMs
      (accelMagOf i.d)).1 i.nowMs (accelMagOf i.d)).1
      (i.d.gx * (Real.pi / 180) - (preState s i).gyroBias.x)
      (i.d.gy * (Real.pi / 180) - (preState s i).gyroBias.y)
      (i.d.gz * (Real.pi / 180) - (preState s i).gyroBias.z)
      (dtOf s.lastUs i.nowUs)) i.nowMs with hc | hc
  · left
    rw [hc]
    exact h4
  · right
    rw [h4] at hc
    rw [hc]
    simp

/-- C2 counterexample: in a state whose shot log holds 50 records while the
peak window is open, a quiet tick that closes the window produces no event at
all — in particular the spin classifier is not invoked on the tracked peaks,
contradicting the claim that the shot is still computed — and the log is
unchanged. -/
theorem shot_log_full_cx :
    (tick sFull (quietAt 1200)).2 = []
    ∧ (tick sFull (quietAt 1200)).1.shots = sFull.shots := by
  have h := tick_simple sFull 1200 0 rfl rfl rfl rfl rfl rfl rfl
  rw [accelMag_quiet] at h
  rw [show quietAt 1200 = (⟨0, 1200, ⟨0, 0, 0, 0, 0, 0⟩⟩ : TickIn) from rfl, h]
  rw [impactPhase_neg _ _ _ (by norm_num)]
  have hcf := trackPhase_close_full (sFull, ([] : List Ev)).1 1200 0 rfl
    (by norm_num [sFull, initState, usub32])
    (by simp [sFull, initState, MAX_SHOTS])
  refine ⟨?_, hcf.1⟩
  rw [hcf.2.2]
  rfl

/-- C2 (amended): the shot log never exceeds its fixed capacity of 50; when the
peak window closes while the log is full, no record is appended or overwritten
and no shot message is broadcast — and, unlike the claim's wording, the whole
shot-computation block is skipped, so the spin classifier is not run on the
tracked peaks; the impact flag raised at detection is unaffected by log
fullness and still reaches the next sample message. -/
theorem shot_log_soft_bound :
    (∀ s i, s.shots.length ≤ MAX_SHOTS → (tick s i).1.shots.length ≤ MAX_SHOTS)
    ∧ (∀ l, (run initState l).1.shots.length ≤ MAX_SHOTS)
    ∧ (∀ s i, s.trackingPeak = true →
        ¬(accelMagOf i.d > 4 ∧ usub32 i.nowMs s.lastImpactMs > 200) →
        usub32 i.nowMs s.peakTrackStartMs > 100 →
        s.shots.length = MAX_SHOTS →
        (tick s i).1.shots = s.shots
        ∧ (tick s i).1.trackingPeak = false
        ∧ (∀ idx, Ev.shotSent idx ∉ (tick s i).2)
        ∧ (∀ a b c r, Ev.shotClassified a b c r ∉ (tick s i).2))
    ∧ (∀ s i, accelMagOf i.d > 4 → usub32 i.nowMs s.lastImpactMs > 200 →
        ((tick s i).1.impactFlag = true ∨ Ev.sampleSent true ∈ (tick s i).2)) :=
  ⟨fun s i h => tick_shots_bound s i h,
   fun l => run_shots_bound l initState (by norm_num [initState]),
   fun s i ht hnt hcl hfull => tick_full_close s i ht hnt hcl hfull,
   fun s i h4g hdb => tick_trigger_flag s i h4g hdb⟩

/-- Witness for the amended C2: the concrete full-log window close leaves the
log exactly as it was. -/
theorem shot_log_soft_bound_witness :
    (tick sFull (quietAt 1200)).1.shots = sFull.shots :=
  (shot_log_soft_bound.2.2.1 sFull (quietAt 1200) rfl
    (by
      rw [show (quietAt 1200).d = (⟨0, 0, 0, 0, 0, 0⟩ : ImuSample) from rfl, accelMag_quiet]
      norm_num)
    (by norm_num [quietAt, sFull, initState, usub32])
    (by simp [sFull, initState, MAX_SHOTS])).1

/-- C6 counterexample: across a sleep/wake cycle (tick reference at 1 s of
microseconds before sleep, wake at 61 s), the wake path resets the timing
reference, so a first post-wake tick 2 ms later computes dt = 0.002 s — not the
0.033 s clamp default the claim asserts. -/
theorem wake_dt_cx :
    dtOf (wakeFromSleep preSleepState 61000000 61000).lastUs 61002000 ≠ 0.033 := by
  have h1 : (wakeFromSleep preSleepState 61000000 61000).lastUs = 61000000 := rfl
  rw [h1]
  simp only [dtOf]
  have h2 : usub32 61002000 61000000 = 2000 := by norm_num [usub32]
  rw [h2]
  rw [if_neg (by norm_num)]
  norm_num

/-- C6 (amended): the wake path resets the tick-timing reference to the
wake-time clock, so the first post-wake tick's dt is computed solely from the
time since wake — it equals that elapsed time in seconds when at most 0.1 s
passed, and the 0.033 s clamp default only when more than 0.1 s passed; the
pre-sleep reference and hence the sleep duration never enter. -/
theorem wake_dt_amended (s : LoopState) (wakeUs wakeMs t1 : ℕ) :
    (wakeFromSleep s wakeUs wakeMs).lastUs = wakeUs
    ∧ (usub32 t1 wakeUs ≤ 100000 →
        dtOf (wakeFromSleep s wakeUs wakeMs).lastUs t1 = (usub32 t1 wakeUs : ℝ) * 1e-6)
    ∧ (100000 < usub32 t1 wakeUs →
        dtOf (wakeFromSleep s wakeUs wakeMs).lastUs t1 = 0.033) := by
  refine ⟨rfl, ?_, ?_⟩
  · intro h
    have h' : (usub32 t1 wakeUs : ℝ) ≤ 100000 := by exact_mod_cast h
    show dtOf wakeUs t1 = _
    simp only [dtOf]
    rw [if_neg (by rw [not_lt]; nlinarith)]
  · intro h
    have h' : (100000 : ℝ) < (usub32 t1 wakeUs : ℝ) := by exact_mod_cast h
    show dtOf wakeUs t1 = _
    simp only [dtOf]
    rw [if_pos (by show (0.1:ℝ) < _; nlinarith)]

/-- Witness for the amended C6: a first post-wake tick 0.2 s after the reset is
clamped to 0.033 s. -/
theorem wake_dt_amended_witness :
    dtOf (wakeFromSleep initState 0 0).lastUs 200000 = 0.033 :=
  (wake_dt_amended initState 0 0 200000).2.2 (by norm_num [usub32])

/-- C10 counterexample: the client counter is an 8-bit unsigned integer, so a
connect notification arriving with 255 attached clients wraps the counter to 0
instead of adding one. -/
theorem client_count_cx :
    (onWsEvent s255 WsEvent.connected).clientCount ≠ s255.clientCount + 1 := by
  show (s255.clientCount + 1) % 256 ≠ s255.clientCount + 1
  norm_num [s255, initState]

theorem onWsEvent_bound (s : LoopState) (e : WsEvent)
    (h : s.clientCount ≤ 255) : (onWsEvent s e).clientCount ≤ 255 := by
  cases e with
  | connected =>
      show (s.clientCount + 1) % 256 ≤ 255
      omega
  | disconnected =>
      show (if 0 < s.clientCount then { s with clientCount := s.clientCount - 1 }
        else s).clientCount ≤ 255
      split_ifs with hp
      · simp
        omega
      · exact h
  | text p =>
      simp only [onWsEvent]
      split_ifs <;> simp_all

/-- C10 (amended): the connection count never goes below zero — a disconnect at
zero is a no-op thanks to the explicit guard, a disconnect at a positive count
subtracts one, and the count always stays in the 8-bit range 0..255 (so the
`count > 0` telemetry gate is well-defined under spurious disconnects); a
connect adds exactly one whenever the count is below 255, the uint8 counter
wrapping to 0 only in the unreachable 256-client regime. -/
theorem client_count_guarded (s : LoopState) (l : List WsEvent) :
    (s.clientCount = 0 → (onWsEvent s WsEvent.disconnected).clientCount = 0)
    ∧ (0 < s.clientCount →
        (onWsEvent s WsEvent.disconnected).clientCount = s.clientCount - 1)
    ∧ (s.clientCount < 255 →
        (onWsEvent s WsEvent.connected).clientCount = s.clientCount + 1)
    ∧ (s.clientCount ≤ 255 → (wsRun s l).clientCount ≤ 255) := by
  refine ⟨?_, ?_, ?_, ?_⟩
  · intro h
    show (if 0 < s.clientCount then { s with clientCount := s.clientCount - 1 }
      else s).clientCount = 0
    rw [if_neg (by omega)]
    exact h
  · intro h
    show (if 0 < s.clientCount then { s with clientCount := s.clientCount - 1 }
      else s).clientCount = s.clientCount - 1
    rw [if_pos h]
  · intro h
    show (s.clientCount + 1) % 256 = s.clientCount + 1
    omega
  · intro h
    induction l generalizing s with
    | nil => exact h
    | cons e rest ih => exact ih (onWsEvent s e) (onWsEvent_bound s e h)

/-- Witness for the amended C10: from the startup state, a connect raises the
count from 0 to 1. -/
theorem client_count_guarded_witness :
    (onWsEvent initState WsEvent.connected).clientCount = initState.clientCount + 1 :=
  (client_count_guarded initState []).2.2.1 (by norm_num [initState])

/-- Witness for C7: the two-spike scenario trace satisfies the reference
impact-flag machine. -/
theorem impact_flag_edge_triggered_witness :
    sentFlagsOk false (run initState scenClose).2
    ∧ (run initState scenClose).1.impactFlag = flagSpec false (run initState scenClose).2 :=
  impact_flag_edge_triggered scenClose

end TennisIMU
